import Mathlib

/-!
Shallow embedding of the Duck Machine DM2022 CPU core
(`DuckMachineCPU/cpu/cpu.py`): the ALU, the register file with its
hard-wired zero register, the fetch/decode/execute `step`, the `run`
loop, and the `CPUStep` trace event.

The collaborators imported by `cpu.py` (`instr_format`, `register`,
`memory`, `mvc`) are not part of the given source tree; their contracts
are modelled from the specification where noted.
-/

namespace DuckMachine

/-- Opcodes of the instruction set, as used by `ALU.ALU_OPS` and `CPU.step`. -/
inductive OpCode where
  | ADD | SUB | MUL | DIV | LOAD | STORE | HALT
deriving DecidableEq, Repr

/-- Condition flags: Minus, Zero, Plus, faulty arithmetic (V), and the
always-true sentinel `ALWAYS`. -/
inductive CondFlag where
  | M | Z | P | V | ALWAYS
deriving DecidableEq, Repr

/-- Modelled from the spec: the bit encoding underlying the condition
flags, needed for the bitwise-AND condition test in `CPU.step`.  Each
single flag is one bit and the always-true sentinel is the bitwise union
of all flag bits, so that it matches every flag value (spec §9). -/
def CondFlag.mask : CondFlag → Nat
  | .M => 1
  | .Z => 2
  | .P => 4
  | .V => 8
  | .ALWAYS => 15

/-- Modelled from the spec: a decoded instruction word (spec §3).  The
decoder guarantees register indices in the range 0–15, so the register
fields are `Fin 16`; the condition mask field is the underlying bitmask
of permitted condition flags. -/
structure Instruction where
  op : OpCode
  cond : Nat
  reg_target : Fin 16
  reg_src1 : Fin 16
  reg_src2 : Fin 16
  offset : Int
deriving DecidableEq, Repr

/-- The register file: sixteen integer cells. -/
def RegFile : Type := Fin 16 → Int

/-- Modelled from the spec: `Register.get`/`ZeroRegister.get` (spec §4.2);
index 0 is the zero register and always reads 0. -/
def regGet (r : RegFile) (i : Fin 16) : Int :=
  if i = 0 then 0 else r i

/-- Modelled from the spec: `Register.put`/`ZeroRegister.put` (spec §4.2);
a `put` to index 0 is accepted but has no effect. -/
def regPut (r : RegFile) (i : Fin 16) (v : Int) : RegFile :=
  if i = 0 then r else Function.update r i v

/-- Modelled from the spec: the external memory collaborator maps integer
addresses to integer words (spec §6); bounds enforcement is out of scope. -/
def Memory : Type := Int → Int

/-- Memory `put`: update one address. -/
def memPut (m : Memory) (a v : Int) : Memory :=
  fun x => if x = a then v else m x

/-- The operation table `ALU.ALU_OPS` of `cpu.py`.  Python raises
`ZeroDivisionError` on `x // 0`; the raising case is `none`. -/
def ALU_OPS (op : OpCode) (x y : Int) : Option Int :=
  match op with
  | .ADD => some (x + y)
  | .SUB => some (x - y)
  | .MUL => some (x * y)
  | .DIV => if y = 0 then none else some (Int.fdiv x y)
  | .LOAD => some (x + y)
  | .STORE => some (x + y)
  | .HALT => some 0

/-- `ALU.exec` of `cpu.py`: run the selected operation, derive the flag
from the result, and turn any failure into `(0, V)` via the bare
`except` clause. -/
def ALU.exec (op : OpCode) (in1 in2 : Int) : Int × CondFlag :=
  match ALU_OPS op in1 in2 with
  | some sol =>
      if sol = 0 then (sol, CondFlag.Z)
      else if sol < 0 then (sol, CondFlag.M)
      else (sol, CondFlag.P)
  | none => (0, CondFlag.V)

/-- The CPU state: memory connection, register file, current condition
flag and halted flag (`CPU.__init__` fields of `cpu.py`). -/
structure CPUState where
  memory : Memory
  regs : RegFile
  condition : CondFlag
  halted : Bool

/-- The freshly constructed CPU of `CPU.__init__`: condition is
`CondFlag.ALWAYS`, halted is false.  The initial register contents are
left as a parameter since the `Register` constructor is external. -/
def CPU.init (memory : Memory) (regs0 : RegFile) : CPUState :=
  { memory := memory, regs := regs0, condition := CondFlag.ALWAYS, halted := false }

/-- The `CPUStep` event class of `cpu.py` (without the `subject`
back-reference, which carries no data of its own). -/
structure CPUStep where
  pc_addr : Int
  instr_word : Int
  instr : Instruction
deriving Repr

/-- The event broadcast by `CPU.step` via `notify_all`, built exactly as
at the call site `CPUStep(self, instr_addr, instr_word, instr)`: the
local `instr_word` holds the value read from register 15 and the local
`instr_addr` holds the memory word fetched at that value. -/
def stepEvent (decode : Int → Instruction) (s : CPUState) : CPUStep :=
  let instr_word := regGet s.regs 15
  let instr_addr := s.memory instr_word
  let instr := decode instr_addr
  { pc_addr := instr_addr, instr_word := instr_word, instr := instr }

/-- `CPU.step` of `cpu.py`, in source order: fetch, decode, condition
test, and on success ALU execution, flag/halt update, program-counter
increment, then the opcode dispatch; on failure only the program-counter
increment.  The external `decode` function is a parameter (spec §6). -/
def step (decode : Int → Instruction) (s : CPUState) : CPUState :=
  let instr_word := regGet s.regs 15
  let instr_addr := s.memory instr_word
  let instr := decode instr_addr
  if CondFlag.mask s.condition &&& instr.cond ≠ 0 then
    let l_operand := regGet s.regs instr.reg_src1
    let r_operand := regGet s.regs instr.reg_src2 + instr.offset
    let res := ALU.exec instr.op l_operand r_operand
    let s1 : CPUState :=
      { s with condition := res.2,
               halted := if res.2 = CondFlag.V then true else s.halted }
    let s2 : CPUState :=
      { s1 with regs := regPut s1.regs 15 (regGet s1.regs 15 + 1) }
    match instr.op with
    | .HALT => { s2 with halted := true }
    | .LOAD => { s2 with regs := regPut s2.regs instr.reg_target (s2.memory res.1) }
    | .STORE => { s2 with memory := memPut s2.memory res.1 (regGet s2.regs instr.reg_target) }
    | _ => { s2 with regs := regPut s2.regs instr.reg_target res.1 }
  else
    { s with regs := regPut s.regs 15 (regGet s.regs 15 + 1) }

/-- The instruction fetched and decoded at the start of a `step` on
state `s`. -/
def fetched (decode : Int → Instruction) (s : CPUState) : Instruction :=
  decode (s.memory (regGet s.regs 15))

/-- The condition test value of `CPU.step`: bitwise AND of the current
condition with the condition mask of the fetched instruction. -/
def condTest (decode : Int → Instruction) (s : CPUState) : Nat :=
  CondFlag.mask s.condition &&& (fetched decode s).cond

/-- The ALU invocation a passing `step` performs on state `s`. -/
def aluOf (decode : Int → Instruction) (s : CPUState) : Int × CondFlag :=
  ALU.exec (fetched decode s).op (regGet s.regs (fetched decode s).reg_src1)
    (regGet s.regs (fetched decode s).reg_src2 + (fetched decode s).offset)

/-- The initialisation performed by `CPU.run` before its loop: clear
`halted` and store the start address into register 15. -/
def runSetup (from_addr : Int) (s : CPUState) : CPUState :=
  { s with halted := false, regs := regPut s.regs 15 from_addr }

/-- The `while not self.halted` loop of `CPU.run`, with explicit fuel. -/
def runAux (decode : Int → Instruction) : Nat → CPUState → CPUState
  | 0, s => s
  | n + 1, s => if s.halted then s else runAux decode n (step decode s)

/-- `CPU.run` of `cpu.py`: reset `halted`, set the program counter, then
step until halted (up to the given fuel). -/
def run (decode : Int → Instruction) (from_addr : Int) (fuel : Nat)
    (s : CPUState) : CPUState :=
  runAux decode fuel (runSetup from_addr s)

/-- The flag-update phase of an executed step: store the new condition
and set `halted` when the flag is the fault flag `V`. -/
def setFlagsPhase (f : CondFlag) (s : CPUState) : CPUState :=
  { s with condition := f, halted := if f = CondFlag.V then true else s.halted }

/-- The program-counter advance of a step: `get() + 1` written back to
register 15. -/
def advancePhase (s : CPUState) : CPUState :=
  { s with regs := regPut s.regs 15 (regGet s.regs 15 + 1) }

/-- The opcode dispatch of an executed step: the register or memory
write selected by the opcode (`result` is the ALU result). -/
def dispatchPhase (instr : Instruction) (result : Int) (s : CPUState) : CPUState :=
  match instr.op with
  | .HALT => { s with halted := true }
  | .LOAD => { s with regs := regPut s.regs instr.reg_target (s.memory result) }
  | .STORE => { s with memory := memPut s.memory result (regGet s.regs instr.reg_target) }
  | _ => { s with regs := regPut s.regs instr.reg_target result }

/-- A step in the order the specification lists the actions: condition
test, then the execute phase (ALU, flag/halt update, opcode dispatch
write), and only then, as the final action, the program-counter advance.
This is the comparison point for the ordering claim; `step` above is the
translation of the source. -/
def stepAdvanceLast (decode : Int → Instruction) (s : CPUState) : CPUState :=
  let instr := decode (s.memory (regGet s.regs 15))
  if CondFlag.mask s.condition &&& instr.cond ≠ 0 then
    let l_operand := regGet s.regs instr.reg_src1
    let r_operand := regGet s.regs instr.reg_src2 + instr.offset
    let res := ALU.exec instr.op l_operand r_operand
    advancePhase (dispatchPhase instr res.1 (setFlagsPhase res.2 s))
  else
    advancePhase s

/-- Test fixture: an Add instruction whose target is the program
counter (register 15), with the always-true mask. -/
def addToPCInstr : Instruction :=
  { op := .ADD, cond := 15, reg_target := 15, reg_src1 := 0, reg_src2 := 0, offset := 7 }

/-- Test fixture decoder: every word decodes to `addToPCInstr`. -/
def decodeAddToPC : Int → Instruction := fun _ => addToPCInstr

/-- Test fixture state: zero memory and registers, condition `Z`. -/
def stateZ : CPUState :=
  { memory := fun _ => 0, regs := fun _ => 0, condition := .Z, halted := false }

/-- Test fixture state: program counter 0 and instruction word 42 at
address 0. -/
def stateEvent : CPUState :=
  { memory := fun a => if a = 0 then 42 else 0, regs := fun _ => 0,
    condition := .Z, halted := false }

/-- Test fixture: an Add instruction whose condition mask is the single
flag `M` (bit 1). -/
def maskMInstr : Instruction :=
  { op := .ADD, cond := 1, reg_target := 1, reg_src1 := 0, reg_src2 := 0, offset := 5 }

/-- Test fixture decoder: every word decodes to `maskMInstr`. -/
def decodeMaskM : Int → Instruction := fun _ => maskMInstr

/-- Test fixture state: all registers hold 9, condition `Z` (so the
`maskMInstr` condition test fails: 2 AND 1 = 0). -/
def stateNines : CPUState :=
  { memory := fun _ => 0, regs := fun _ => 9, condition := .Z, halted := false }

/-- Test fixture state: all registers hold 9, condition `M` (so the
`maskMInstr` condition test passes: 1 AND 1 = 1). -/
def stateM : CPUState :=
  { memory := fun _ => 0, regs := fun _ => 9, condition := .M, halted := false }

/-- Test fixture: a Divide instruction whose right operand is register 0
plus offset 0, i.e. a division by zero. -/
def divByZeroInstr : Instruction :=
  { op := .DIV, cond := 15, reg_target := 2, reg_src1 := 3, reg_src2 := 0, offset := 0 }

/-- Test fixture decoder: every word decodes to `divByZeroInstr`. -/
def decodeDiv : Int → Instruction := fun _ => divByZeroInstr

/-- Test fixture state: register 3 holds 10, condition `P`. -/
def stateDiv : CPUState :=
  { memory := fun _ => 0, regs := fun i => if i = 3 then 10 else 0,
    condition := .P, halted := false }

/-- The Add instruction of the end-to-end test: target 1, both sources
the zero register, offset 5, always-true mask. -/
def addFive : Instruction :=
  { op := .ADD, cond := 15, reg_target := 1, reg_src1 := 0, reg_src2 := 0, offset := 5 }

/-- The Halt instruction of the end-to-end test, with always-true mask. -/
def haltAlways : Instruction :=
  { op := .HALT, cond := 15, reg_target := 0, reg_src1 := 0, reg_src2 := 0, offset := 0 }

/-- Test fixture decoder for the end-to-end test: word 0 is the Add,
any other word the Halt. -/
def decodeE2E : Int → Instruction := fun w => if w = 0 then addFive else haltAlways

/-- Test fixture memory for the end-to-end test: word 0 at address 0,
word 1 everywhere else. -/
def memE2E : Memory := fun a => if a = 0 then 0 else 1

lemma regGet_zero (r : RegFile) : regGet r 0 = 0 := rfl

lemma regGet_regPut_self (r : RegFile) (i : Fin 16) (v : Int) (h : i ≠ 0) :
    regGet (regPut r i v) i = v := by
  simp [regGet, regPut, h]

lemma regGet_regPut_other (r : RegFile) (i j : Fin 16) (v : Int) (h : j ≠ i) :
    regGet (regPut r i v) j = regGet r j := by
  by_cases h0 : i = 0
  · simp [regPut, h0]
  · simp [regGet, regPut, h0, Function.update, h]

lemma step_fail (decode : Int → Instruction) (s : CPUState)
    (h : condTest decode s = 0) :
    step decode s = { s with regs := regPut s.regs 15 (regGet s.regs 15 + 1) } := by
  have h' : ¬ (CondFlag.mask s.condition &&&
      (decode (s.memory (regGet s.regs 15))).cond ≠ 0) := by
    simpa [condTest, fetched] using h
  simp only [step, if_neg h']

lemma step_pass (decode : Int → Instruction) (s : CPUState)
    (h : condTest decode s ≠ 0) :
    step decode s =
      dispatchPhase (fetched decode s) (aluOf decode s).1
        (advancePhase (setFlagsPhase (aluOf decode s).2 s)) := by
  have h' : CondFlag.mask s.condition &&&
      (decode (s.memory (regGet s.regs 15))).cond ≠ 0 := by
    simpa [condTest, fetched] using h
  simp only [step, if_pos h', fetched, aluOf, dispatchPhase, advancePhase, setFlagsPhase]

lemma runAux_halted (decode : Int → Instruction) (n : Nat) (s : CPUState)
    (h : s.halted = true) : runAux decode n s = s := by
  cases n with
  | zero => rfl
  | succ n => simp [runAux, h]

lemma mask_and_15_ne (c : CondFlag) : CondFlag.mask c &&& 15 ≠ 0 := by
  cases c <;> decide

lemma ALU_OPS_eq_none_iff (op : OpCode) (x y : Int) :
    ALU_OPS op x y = none ↔ op = .DIV ∧ y = 0 := by
  cases op <;> simp [ALU_OPS]

lemma exec_snd_ne_always (op : OpCode) (x y : Int) :
    (ALU.exec op x y).2 ≠ CondFlag.ALWAYS := by
  unfold ALU.exec
  cases ALU_OPS op x y with
  | none => simp
  | some sol => dsimp only; split_ifs <;> simp

lemma exec_snd_V_iff (op : OpCode) (x y : Int) :
    (ALU.exec op x y).2 = CondFlag.V ↔ ALU_OPS op x y = none := by
  unfold ALU.exec
  cases ALU_OPS op x y with
  | none => simp
  | some sol => dsimp only; split_ifs <;> simp

lemma dispatchPhase_halted (i : Instruction) (r : Int) (s : CPUState) :
    (dispatchPhase i r s).halted = if i.op = .HALT then true else s.halted := by
  unfold dispatchPhase
  cases h : i.op <;> simp [h]

lemma dispatchPhase_condition (i : Instruction) (r : Int) (s : CPUState) :
    (dispatchPhase i r s).condition = s.condition := by
  unfold dispatchPhase
  cases h : i.op <;> rfl

lemma dispatchPhase_div (i : Instruction) (r : Int) (s : CPUState)
    (h : i.op = .DIV) :
    dispatchPhase i r s = { s with regs := regPut s.regs i.reg_target r } := by
  unfold dispatchPhase
  rw [h]

lemma step_pass_condition (decode : Int → Instruction) (s : CPUState)
    (h : condTest decode s ≠ 0) :
    (step decode s).condition = (aluOf decode s).2 := by
  rw [step_pass decode s h, dispatchPhase_condition]
  rfl

/-- C1 counterexample: on an Add instruction whose target is the
program counter (register 15), with a passing condition test, the final
value of register 15 differs between the source `step` (increment first,
write afterwards: register 15 ends at the ALU result, 7) and the order
the claim states (write first, increment as the final action: register
15 ends at 8).  The claimed ordering is therefore false of the code. -/
theorem C1_counterexample :
    condTest decodeAddToPC stateZ ≠ 0 ∧
    regGet (step decodeAddToPC stateZ).regs 15 = 7 ∧
    regGet (stepAdvanceLast decodeAddToPC stateZ).regs 15 = 8 ∧
    regGet (step decodeAddToPC stateZ).regs 15 ≠
      regGet (stepAdvanceLast decodeAddToPC stateZ).regs 15 := by
  decide

/-- C1 (amended): for every step whose condition test passes, the
flag/halt update happens first, then the program counter is incremented
by 1 via get()+1 written back to register 15, and only afterwards, as
the final action of the step, does the opcode dispatch perform its
register/memory write — so a write targeting register 15 overrides the
increment. -/
theorem C1_advance_before_dispatch (decode : Int → Instruction) (s : CPUState)
    (h : condTest decode s ≠ 0) :
    step decode s =
      dispatchPhase (fetched decode s) (aluOf decode s).1
        (advancePhase (setFlagsPhase (aluOf decode s).2 s)) :=
  step_pass decode s h

/-- C1 witness: the amended ordering at the concrete Add-to-PC input. -/
theorem C1_advance_before_dispatch_witness :
    step decodeAddToPC stateZ =
      dispatchPhase (fetched decodeAddToPC stateZ) (aluOf decodeAddToPC stateZ).1
        (advancePhase (setFlagsPhase (aluOf decodeAddToPC stateZ).2 stateZ)) :=
  C1_advance_before_dispatch decodeAddToPC stateZ (by decide)

/-- C2: at a state whose program counter is 0 and whose memory holds
word 42 at address 0, the broadcast step event carries pc_addr = 42
(the raw instruction word) and instr_word = 0 (the fetched address):
the two fields are swapped relative to the claim, because the call site
passes `instr_addr` (the fetched memory word) where `CPUStep` declares
`pc_addr` and vice versa. -/
theorem C2_event_fields_swapped :
    regGet stateEvent.regs 15 = 0 ∧
    stateEvent.memory 0 = 42 ∧
    (stepEvent decodeAddToPC stateEvent).pc_addr = 42 ∧
    (stepEvent decodeAddToPC stateEvent).instr_word = 0 := by
  decide

/-- C3 counterexample: the freshly constructed CPU has the always-true
sentinel as its current condition flag, so the sentinel is a reachable
runtime flag value, contrary to the claim. -/
theorem C3_counterexample :
    (CPU.init (fun _ => 0) (fun _ => 0)).condition = CondFlag.ALWAYS := rfl

/-- C3 (amended): the always-true sentinel is, besides a condition-mask
value, the initial condition of a freshly constructed CPU (so the first
instruction executes under any mask); every step whose condition test
passes sets the condition to one of Zero, Minus, Plus, Fault — never
the sentinel — and a step whose test fails leaves the condition
unchanged. -/
theorem C3_sentinel_flag (decode : Int → Instruction) (s s2 : CPUState)
    (h : condTest decode s ≠ 0) (h2 : condTest decode s2 = 0) :
    (∀ (m : Memory) (r : RegFile), (CPU.init m r).condition = CondFlag.ALWAYS) ∧
    (step decode s).condition ≠ CondFlag.ALWAYS ∧
    (step decode s2).condition = s2.condition := by
  refine ⟨fun m r => rfl, ?_, ?_⟩
  · rw [step_pass_condition decode s h]
    unfold aluOf
    exact exec_snd_ne_always _ _ _
  · rw [step_fail decode s2 h2]

/-- C3 witness: the amended statement at concrete inputs (a passing
step under condition `M` and a failing step under condition `Z`). -/
theorem C3_sentinel_flag_witness :
    (CPU.init (fun _ => 1) (fun _ => 1)).condition = CondFlag.ALWAYS ∧
    (step decodeMaskM stateM).condition ≠ CondFlag.ALWAYS ∧
    (step decodeMaskM stateNines).condition = stateNines.condition := by
  have h := C3_sentinel_flag decodeMaskM stateM stateNines (by decide) (by decide)
  exact ⟨h.1 _ _, h.2.1, h.2.2⟩

/-- C4: a step whose condition test yields zero leaves every register
other than the program counter unchanged, leaves memory, condition and
halted unchanged, and increments the program counter by exactly 1. -/
theorem C4_skip_frame (decode : Int → Instruction) (s : CPUState)
    (h : condTest decode s = 0) :
    (∀ i : Fin 16, i ≠ 15 → regGet (step decode s).regs i = regGet s.regs i) ∧
    (step decode s).memory = s.memory ∧
    (step decode s).condition = s.condition ∧
    (step decode s).halted = s.halted ∧
    regGet (step decode s).regs 15 = regGet s.regs 15 + 1 := by
  rw [step_fail decode s h]
  exact ⟨fun i hi => regGet_regPut_other _ _ _ _ hi, rfl, rfl, rfl,
    regGet_regPut_self _ _ _ (by decide)⟩

/-- C4 witness: the frame condition at a concrete failing step
(condition `Z` against mask `M`), sampled at register 3. -/
theorem C4_skip_frame_witness :
    regGet (step decodeMaskM stateNines).regs 3 = regGet stateNines.regs 3 ∧
    (step decodeMaskM stateNines).memory = stateNines.memory ∧
    (step decodeMaskM stateNines).condition = stateNines.condition ∧
    (step decodeMaskM stateNines).halted = stateNines.halted ∧
    regGet (step decodeMaskM stateNines).regs 15 = regGet stateNines.regs 15 + 1 := by
  have h := C4_skip_frame decodeMaskM stateNines (by decide)
  exact ⟨h.1 3 (by decide), h.2.1, h.2.2.1, h.2.2.2.1, h.2.2.2.2⟩

/-- C5: dividing by zero returns `(0, V)` for any left operand, and more
generally every failing computation (every case where the operation
table yields no value) is caught and returned as `(0, V)`; the unit is a
total function, so it never raises to its caller. -/
theorem C5_alu_fault (x : Int) :
    ALU.exec .DIV x 0 = (0, CondFlag.V) ∧
    (∀ (op : OpCode) (a b : Int), ALU_OPS op a b = none →
      ALU.exec op a b = (0, CondFlag.V)) := by
  constructor
  · simp [ALU.exec, ALU_OPS]
  · intro op a b h
    simp [ALU.exec, h]

/-- C5 witness: divide-by-zero at concrete operands, through both
conjuncts. -/
theorem C5_alu_fault_witness :
    ALU.exec .DIV 5 0 = (0, CondFlag.V) ∧
    ALU.exec .DIV (-3) 0 = (0, CondFlag.V) :=
  ⟨(C5_alu_fault 5).1, (C5_alu_fault 5).2 .DIV (-3) 0 (by decide)⟩

/-- C6: for the six computing opcodes and operands on which the
computation succeeds, the returned flag is derived from the result
(zero, negative, positive) and the result is the ordinary signed sum,
difference, product, floor quotient, or, for Load/Store, the sum of the
operands. -/
theorem C6_alu_semantics (op : OpCode) (x y sol : Int)
    (hmem : op ∈ [OpCode.ADD, OpCode.SUB, OpCode.MUL, OpCode.DIV,
      OpCode.LOAD, OpCode.STORE])
    (h : ALU_OPS op x y = some sol) :
    ALU.exec op x y =
      (sol, if sol = 0 then CondFlag.Z else if sol < 0 then CondFlag.M
            else CondFlag.P) ∧
    (op = .ADD → sol = x + y) ∧
    (op = .SUB → sol = x - y) ∧
    (op = .MUL → sol = x * y) ∧
    (op = .DIV → sol = Int.fdiv x y) ∧
    ((op = .LOAD ∨ op = .STORE) → sol = x + y) := by
  refine ⟨by simp only [ALU.exec, h]; split_ifs <;> rfl, ?_, ?_, ?_, ?_, ?_⟩
  · intro hop; subst hop; simpa [ALU_OPS] using h.symm
  · intro hop; subst hop; simpa [ALU_OPS] using h.symm
  · intro hop; subst hop; simpa [ALU_OPS] using h.symm
  · intro hop; subst hop
    by_cases hy : y = 0
    · simp [ALU_OPS, hy] at h
    · simpa [ALU_OPS, hy] using h.symm
  · rintro (hop | hop) <;> subst hop <;> simpa [ALU_OPS] using h.symm

/-- C6 witness: the semantics at concrete inputs 2 + 3 = 5 with flag
Plus. -/
theorem C6_alu_semantics_witness :
    ALU.exec .ADD 2 3 = (5, CondFlag.P) ∧ (5 : Int) = 2 + 3 := by
  have h := C6_alu_semantics .ADD 2 3 5 (by decide) (by decide)
  exact ⟨by simpa using h.1, h.2.1 rfl⟩

/-- C7: a step whose condition test passes and whose ALU invocation
returns the Fault flag sets the condition to Fault, sets halted, and
still completes its remaining side effects: memory is untouched, the
program counter is advanced, and the opcode (necessarily Divide here)
writes the returned result into its target register; nothing is raised,
the step is a total function. -/
theorem C7_fault_step (decode : Int → Instruction) (s : CPUState)
    (h : condTest decode s ≠ 0) (hv : (aluOf decode s).2 = CondFlag.V) :
    (step decode s).halted = true ∧
    (step decode s).condition = CondFlag.V ∧
    (step decode s).memory = s.memory ∧
    (step decode s).regs =
      regPut (regPut s.regs 15 (regGet s.regs 15 + 1))
        (fetched decode s).reg_target (aluOf decode s).1 := by
  have hnone : ALU_OPS (fetched decode s).op
      (regGet s.regs (fetched decode s).reg_src1)
      (regGet s.regs (fetched decode s).reg_src2 + (fetched decode s).offset)
      = none := by
    have hv' := hv
    unfold aluOf at hv'
    exact (exec_snd_V_iff _ _ _).mp hv'
  have hdiv : (fetched decode s).op = .DIV :=
    ((ALU_OPS_eq_none_iff _ _ _).mp hnone).1
  rw [step_pass decode s h, dispatchPhase_div _ _ _ hdiv]
  refine ⟨?_, ?_, rfl, ?_⟩
  · simp [advancePhase, setFlagsPhase, hv]
  · simp [advancePhase, setFlagsPhase, hv]
  · simp [advancePhase, setFlagsPhase]

/-- C7 witness: the divide-by-zero step at the concrete fixture. -/
theorem C7_fault_step_witness :
    (step decodeDiv stateDiv).halted = true ∧
    (step decodeDiv stateDiv).condition = CondFlag.V ∧
    (step decodeDiv stateDiv).memory = stateDiv.memory ∧
    (step decodeDiv stateDiv).regs =
      regPut (regPut stateDiv.regs 15 (regGet stateDiv.regs 15 + 1))
        (fetched decodeDiv stateDiv).reg_target (aluOf decodeDiv stateDiv).1 :=
  C7_fault_step decodeDiv stateDiv (by decide) (by decide)

/-- C8: `run` clears halted and stores the start address into register
15, then iterates `step` while not halted; a step out of a non-halted
state halts exactly when the condition test passes and the executed
instruction is Halt or the ALU reports a fault — in no other case is
halted set. -/
theorem C8_run_halt (decode : Int → Instruction) (a : Int) (s : CPUState)
    (n : Nat) (hn : s.halted = false) :
    ((runSetup a s).halted = false ∧
     regGet (runSetup a s).regs 15 = a ∧
     run decode a n s = runAux decode n (runSetup a s)) ∧
    (∀ t : CPUState, t.halted = true → runAux decode n t = t) ∧
    runAux decode (n + 1) s = runAux decode n (step decode s) ∧
    ((step decode s).halted = true ↔
      condTest decode s ≠ 0 ∧
        ((fetched decode s).op = OpCode.HALT ∨
          (aluOf decode s).2 = CondFlag.V)) := by
  refine ⟨⟨rfl, regGet_regPut_self _ _ _ (by decide), rfl⟩,
    fun t ht => runAux_halted decode n t ht, by simp [runAux, hn], ?_⟩
  by_cases hc : condTest decode s = 0
  · rw [step_fail decode s hc]
    simp [hn, hc]
  · rw [step_pass decode s hc, dispatchPhase_halted]
    by_cases hh : (fetched decode s).op = OpCode.HALT <;>
      by_cases hv : (aluOf decode s).2 = CondFlag.V <;>
        simp [advancePhase, setFlagsPhase, hh, hv, hn, hc]

/-- C8 witness: the loop facts at the divide-by-zero fixture, where the
step halts through the fault arm of the disjunction. -/
theorem C8_run_halt_witness :
    (runSetup 3 stateDiv).halted = false ∧
    regGet (runSetup 3 stateDiv).regs 15 = 3 ∧
    ((step decodeDiv stateDiv).halted = true ↔
      condTest decodeDiv stateDiv ≠ 0 ∧
        ((fetched decodeDiv stateDiv).op = OpCode.HALT ∨
          (aluOf decodeDiv stateDiv).2 = CondFlag.V)) := by
  have h := C8_run_halt decodeDiv 3 stateDiv 0 rfl
  exact ⟨h.1.1, h.1.2.1, h.2.2.2⟩

/-- C9: for a memory holding at address 0 a word decoding to the Add
instruction (target 1, both sources the zero register, offset 5,
always-true mask) and at address 1 a word decoding to the Halt
instruction, a `run` from address 0 ends with register 1 holding 5, the
program counter holding 2, and halted true — from any starting
registers, condition and halted flag. -/
theorem C9_end_to_end (decode : Int → Instruction) (mem : Memory)
    (regs : RegFile) (c : CondFlag) (b : Bool) (n : Nat)
    (h0 : decode (mem 0) = addFive) (h1 : decode (mem 1) = haltAlways) :
    regGet (run decode 0 (n + 2) ⟨mem, regs, c, b⟩).regs 1 = 5 ∧
    regGet (run decode 0 (n + 2) ⟨mem, regs, c, b⟩).regs 15 = 2 ∧
    (run decode 0 (n + 2) ⟨mem, regs, c, b⟩).halted = true := by
  have hf0 : fetched decode ⟨mem, regPut regs 15 0, c, false⟩ = addFive := h0
  have hct0 : condTest decode ⟨mem, regPut regs 15 0, c, false⟩ ≠ 0 := by
    unfold condTest
    rw [hf0]
    exact mask_and_15_ne c
  have halu0 : aluOf decode ⟨mem, regPut regs 15 0, c, false⟩
      = (5, CondFlag.P) := by
    unfold aluOf
    rw [hf0]
    rfl
  have hstep0 : step decode ⟨mem, regPut regs 15 0, c, false⟩ =
      ⟨mem, regPut (regPut (regPut regs 15 0) 15 1) 1 5,
        CondFlag.P, false⟩ := by
    rw [step_pass _ _ hct0, halu0, hf0]
    rfl
  have hf1 : fetched decode
      ⟨mem, regPut (regPut (regPut regs 15 0) 15 1) 1 5, CondFlag.P, false⟩
      = haltAlways := h1
  have hct1 : condTest decode
      ⟨mem, regPut (regPut (regPut regs 15 0) 15 1) 1 5, CondFlag.P, false⟩
      ≠ 0 := by
    unfold condTest
    rw [hf1]
    exact mask_and_15_ne CondFlag.P
  have halu1 : aluOf decode
      ⟨mem, regPut (regPut (regPut regs 15 0) 15 1) 1 5, CondFlag.P, false⟩
      = (0, CondFlag.Z) := by
    unfold aluOf
    rw [hf1]
    rfl
  have hstep1 : step decode
      ⟨mem, regPut (regPut (regPut regs 15 0) 15 1) 1 5, CondFlag.P, false⟩ =
      ⟨mem, regPut (regPut (regPut (regPut regs 15 0) 15 1) 1 5) 15 2,
        CondFlag.Z, true⟩ := by
    rw [step_pass _ _ hct1, halu1, hf1]
    rfl
  have hrun : run decode 0 (n + 2) ⟨mem, regs, c, b⟩ =
      ⟨mem, regPut (regPut (regPut (regPut regs 15 0) 15 1) 1 5) 15 2,
        CondFlag.Z, true⟩ := by
    calc run decode 0 (n + 2) ⟨mem, regs, c, b⟩
        = runAux decode (n + 1 + 1) ⟨mem, regPut regs 15 0, c, false⟩ := rfl
      _ = runAux decode (n + 1)
            (step decode ⟨mem, regPut regs 15 0, c, false⟩) := by
            simp [runAux]
      _ = runAux decode (n + 1)
            ⟨mem, regPut (regPut (regPut regs 15 0) 15 1) 1 5,
              CondFlag.P, false⟩ := by rw [hstep0]
      _ = runAux decode n (step decode
            ⟨mem, regPut (regPut (regPut regs 15 0) 15 1) 1 5,
              CondFlag.P, false⟩) := by simp [runAux]
      _ = runAux decode n
            ⟨mem, regPut (regPut (regPut (regPut regs 15 0) 15 1) 1 5) 15 2,
              CondFlag.Z, true⟩ := by rw [hstep1]
      _ = ⟨mem, regPut (regPut (regPut (regPut regs 15 0) 15 1) 1 5) 15 2,
            CondFlag.Z, true⟩ := runAux_halted _ _ _ rfl
  rw [hrun]
  exact ⟨rfl, rfl, rfl⟩

/-- C9 witness: the end-to-end run on the concrete fixture memory and
decoder, starting from registers all 3, condition ALWAYS, halted true. -/
theorem C9_end_to_end_witness :
    regGet (run decodeE2E 0 2 ⟨memE2E, fun _ => 3, CondFlag.ALWAYS, true⟩).regs 1
      = 5 ∧
    regGet (run decodeE2E 0 2 ⟨memE2E, fun _ => 3, CondFlag.ALWAYS, true⟩).regs 15
      = 2 ∧
    (run decodeE2E 0 2 ⟨memE2E, fun _ => 3, CondFlag.ALWAYS, true⟩).halted
      = true :=
  C9_end_to_end decodeE2E memE2E (fun _ => 3) CondFlag.ALWAYS true 0 rfl rfl

/-- C10: the setup of `run` clears halted and overwrites register 15
with the start address but leaves the condition flag, every other
register, and memory exactly as they were before the call, and the
first iteration of the loop steps on exactly that state. -/
theorem C10_run_setup_frame (a : Int) (s : CPUState)
    (decode : Int → Instruction) (n : Nat) (i : Fin 16) (hi : i ≠ 15) :
    (runSetup a s).condition = s.condition ∧
    regGet (runSetup a s).regs i = regGet s.regs i ∧
    (runSetup a s).memory = s.memory ∧
    (runSetup a s).halted = false ∧
    regGet (runSetup a s).regs 15 = a ∧
    run decode a (n + 1) s = runAux decode n (step decode (runSetup a s)) := by
  refine ⟨rfl, regGet_regPut_other _ _ _ _ hi, rfl, rfl,
    regGet_regPut_self _ _ _ (by decide), ?_⟩
  show runAux decode (n + 1) (runSetup a s) = _
  simp [runAux, runSetup]

/-- C10 witness: the run-setup frame at the divide fixture, sampled at
register 3. -/
theorem C10_run_setup_frame_witness :
    (runSetup 4 stateDiv).condition = stateDiv.condition ∧
    regGet (runSetup 4 stateDiv).regs 3 = regGet stateDiv.regs 3 ∧
    (runSetup 4 stateDiv).memory = stateDiv.memory ∧
    (runSetup 4 stateDiv).halted = false ∧
    regGet (runSetup 4 stateDiv).regs 15 = 4 ∧
    run decodeDiv 4 1 stateDiv
      = runAux decodeDiv 0 (step decodeDiv (runSetup 4 stateDiv)) :=
  C10_run_setup_frame 4 stateDiv decodeDiv 0 3 (by decide)

end DuckMachine
